import Mathlib

/-!
Shallow embedding of the voodio ingestion-and-lifecycle pipeline (`main.go`):
title normalization of scanned movie/subtitle entries, catalog persistence,
duplicate-group detection, startup/abort handling, storage re-initialization,
and the interrupt-driven shutdown of the service supervisor.
-/

namespace Voodio

/-- Result of the external torrent-name parser
(`parsetorrentname.Parse`): a best-effort title together with an error flag
(`err = true` models a non-nil Go error return). -/
structure ParseResult where
  title : String
  err : Bool
deriving DecidableEq

/-- Model of Go's `filepath.Base` on slash-separated paths: the empty path
gives `"."`, a path consisting only of separators gives `"/"`, otherwise the
last path element after trailing separators are removed. -/
def filepathBase (p : String) : String :=
  if p = "" then "."
  else
    let trimmed := (p.toList.reverse.dropWhile (fun c => c = '/')).reverse
    if trimmed = [] then "/"
    else String.mk ((trimmed.reverse.takeWhile (fun c => c ≠ '/')).reverse)

/-- A movie entry produced by the directory scan
(`collections.MovieDirInfo`). -/
structure MovieDirInfo where
  Dir : String
  MovieFile : String
  MovieSize : Nat
  MimeType : String
deriving DecidableEq

/-- A subtitle entry produced by the directory scan
(`collections.SubDirInfo`). -/
structure SubDirInfo where
  Dir : String
  SubFile : String
deriving DecidableEq

/-- Persisted movie record (`models.Movie`), with the fields written by
`saveMovies`. -/
structure Movie where
  DirPath : String
  DirName : String
  CleanDirName : String
  FileSize : Nat
  BaseName : String
  CleanBaseName : String
  MimeType : String
  IsGroupDir : Bool
  IsPrepared : Bool
deriving DecidableEq

/-- Persisted subtitle record (`models.Subtitle`), with the fields written by
`saveSubs`.  Note it carries no group flag at all. -/
structure Subtitle where
  DirPath : String
  DirName : String
  CleanDirName : String
  BaseName : String
  CleanBaseName : String
deriving DecidableEq

/-- One loop iteration of `saveMovies`: build the record inserted for a
single scanned movie entry.  `parse` is the external title parser.  As in the
source, the error tested when filling `CleanBaseName` is the error of the
*directory-name* parse (`err`); the error of the base-name parse is
discarded (`baseNameParsedInfo, _ := parsetorrentname.Parse(...)`). -/
def mkMovieRecord (parse : String → ParseResult) (movie : MovieDirInfo) : Movie :=
  let dirName := filepathBase movie.Dir
  let dirNameParsed := parse (filepathBase movie.Dir)
  let cleanDirName := if dirNameParsed.err = false then dirNameParsed.title else ""
  let baseNameParsed := parse movie.MovieFile
  let cleanBaseName := if dirNameParsed.err = false then baseNameParsed.title else ""
  { DirPath := movie.Dir
    DirName := dirName
    CleanDirName := cleanDirName
    FileSize := movie.MovieSize
    BaseName := movie.MovieFile
    CleanBaseName := cleanBaseName
    MimeType := movie.MimeType
    IsGroupDir := false
    IsPrepared := false }

/-- Model of `saveMovies`: insert one record per scanned movie entry, in input
order. -/
def saveMovies (parse : String → ParseResult) (movies : List MovieDirInfo) : List Movie :=
  movies.map (mkMovieRecord parse)

/-- One loop iteration of `saveSubs`; same stale-error structure as
`mkMovieRecord`. -/
def mkSubRecord (parse : String → ParseResult) (sub : SubDirInfo) : Subtitle :=
  let dirName := filepathBase sub.Dir
  let dirNameParsed := parse (filepathBase sub.Dir)
  let cleanDirName := if dirNameParsed.err = false then dirNameParsed.title else ""
  let baseNameParsed := parse sub.SubFile
  let cleanBaseName := if dirNameParsed.err = false then baseNameParsed.title else ""
  { DirPath := sub.Dir
    DirName := dirName
    CleanDirName := cleanDirName
    BaseName := sub.SubFile
    CleanBaseName := cleanBaseName }

/-- Model of `saveSubs`: insert one record per scanned subtitle entry, in input
order. -/
def saveSubs (parse : String → ParseResult) (subs : List SubDirInfo) : List Subtitle :=
  subs.map (mkSubRecord parse)

/-- The grouping key of the duplicate-directory query:
`(dir_name, dir_path)`. -/
def movieKey (m : Movie) : String × String :=
  (m.DirName, m.DirPath)

/-- Number of movie records of the catalog sharing a given grouping key
(`COUNT(*)` of the `GROUP BY dir_name, dir_path` aggregate). -/
def keyCount (cat : List Movie) (k : String × String) : Nat :=
  (cat.filter (fun m => decide (movieKey m = k))).length

/-- The keys kept by `GROUP BY dir_name, dir_path HAVING count > 1`:
distinct grouping keys with more than one movie record. -/
def duplicateKeys (cat : List Movie) : List (String × String) :=
  ((cat.map movieKey).dedup).filter (fun k => decide (1 < keyCount cat k))

/-- Body of the update loop for one kept group: every movie record matching
the key gets `IsGroupDir` set to `true`
(`Where(&models.Movie{DirName:..., DirPath:...})` then
`Update(&models.Movie{IsGroupDir: true})`). -/
def flagKey (cat : List Movie) (k : String × String) : List Movie :=
  cat.map (fun m => if movieKey m = k then { m with IsGroupDir := true } else m)

/-- The duplicate-group detection pass of `main`: compute the kept group
keys, then run the update loop for each of them. -/
def detectGroups (cat : List Movie) : List Movie :=
  (duplicateKeys cat).foldl flagKey cat

/-- The whole persisted catalog: the `movies` table and the `subtitles`
table. -/
structure Catalog where
  movies : List Movie
  subs : List Subtitle
deriving DecidableEq

/-- The detection pass acts on the catalog through the `movies` table only
(`dbConn.Table("movies")`, `models.Movie`); the subtitle table is not
queried or updated. -/
def detectGroupsPass (c : Catalog) : Catalog :=
  { movies := detectGroups c.movies, subs := c.subs }

/-- The environment of the pre-serving part of `main`: the parsed flags and
the success of the external probes it performs, in the order the code
performs them. -/
structure SetupEnv where
  moviePath : String
  ffmpegInstalled : Bool
  tmdbKey : String
  dbOpenOk : Bool
  scanOk : Bool
deriving DecidableEq

/-- Outcome of the pre-serving part of `main`: either an abort (recording
whether `cleanup()` ran, i.e. whether the working directory was removed
before the process exit) or a fall-through into the serving phase. -/
inductive SetupOutcome where
  | aborted (cleanedUp : Bool)
  | proceed
deriving DecidableEq

/-- The pre-serving checks of `main`, in source order: empty movie path
(cleanup + panic), missing ffmpeg (panic with no cleanup), empty trimmed
TMDB key (cleanup + panic), `repository.OpenDB` failure (cleanup + panic),
`collections.ScanDir` failure (cleanup + panic). -/
def runSetup (env : SetupEnv) : SetupOutcome :=
  if env.moviePath.length = 0 then SetupOutcome.aborted true
  else if env.ffmpegInstalled = false then SetupOutcome.aborted false
  else if env.tmdbKey.trim.length = 0 then SetupOutcome.aborted true
  else if env.dbOpenOk = false then SetupOutcome.aborted true
  else if env.scanOk = false then SetupOutcome.aborted true
  else SetupOutcome.proceed

/-- The default resolution set substituted when no `-resolution` flag was
given. -/
def defaultResolutions : List String :=
  ["360p", "480p", "720p", "1080p"]

/-- The resolution list `main` ends up with: the caller-provided tokens, or
the default set when zero tokens were provided. -/
def effectiveResolutions (screenRes : List String) : List String :=
  if screenRes.length = 0 then defaultResolutions else screenRes

/-- The configuration `main` hands to `web.NewServer`
(`config.ServerConfig`; the DB handle is elided). -/
structure ServerConfig where
  port : Nat
  appDir : String
  tmdbApiKey : String
  screenResolutions : List String
deriving DecidableEq

/-- Construction of the network service configuration in `main`, including
the defaulting of the resolution list. -/
def mkServerConfig (port : Nat) (appDir tmdbApiKey : String)
    (screenRes : List String) : ServerConfig :=
  { port := port
    appDir := appDir
    tmdbApiKey := tmdbApiKey
    screenResolutions := effectiveResolutions screenRes }

/-- State of the working directory's storage file around `init()`:
whether `voodio.db` exists, its current contents (both tables), and whether
the `os.Remove` / `os.Create` calls would fail. -/
structure AppFs where
  dbExists : Bool
  dbMovies : List Movie
  dbSubs : List Subtitle
  removeFails : Bool
  createFails : Bool
deriving DecidableEq

/-- The storage-file part of `init()`: if a database file from a prior run
exists it is removed (a failed removal panics), then an empty file is
created (a failed creation exits); `none` models the aborted run. -/
def initStorage (fs : AppFs) : Option AppFs :=
  if fs.dbExists then
    if fs.removeFails then none
    else if fs.createFails then none
    else some { fs with dbExists := true, dbMovies := [], dbSubs := [] }
  else if fs.createFails then none
  else some { fs with dbExists := true, dbMovies := [], dbSubs := [] }

/-- The ingestion phase of `main` on the storage state: `saveMovies` and
`saveSubs` append this run's records to the respective tables. -/
def ingest (parse : String → ParseResult) (fs : AppFs)
    (movies : List MovieDirInfo) (subs : List SubDirInfo) : AppFs :=
  { fs with
    dbMovies := fs.dbMovies ++ saveMovies parse movies
    dbSubs := fs.dbSubs ++ saveSubs parse subs }

/-- The `appDirName` constant of the source. -/
def appDirName : String := "voodioapp"

/-- The `dbFileName` constant of the source. -/
def dbFileName : String := "voodio.db"

/-- Model of Go's `filepath.Join` on two elements, for already-clean
inputs: an empty first element is skipped, otherwise the elements are
joined with a separator. -/
def filepathJoin (a b : String) : String :=
  if a = "" then b else a ++ "/" ++ b

/-- The package-level `var cacheDir, _ = os.UserCacheDir()`: the result of
the platform user-cache-root resolution with its error discarded.  `none`
models a failed resolution, for which Go's `os.UserCacheDir` returns the
empty string as first component. -/
def cacheDirOf (res : Option String) : String :=
  match res with
  | some d => d
  | none => ""

/-- Model of `getAppDir`, parameterized by the user-cache-root resolution result held
in the package-level variable. -/
def getAppDir (res : Option String) : String :=
  filepathJoin (cacheDirOf res) appDirName

/-- Observable effects of one run of the interrupt-handler goroutine of
`main`, given whether the graceful `webServer.Shutdown(ctx)` call failed
(deadline elapsed or error).  Mirrors the goroutine body: disable
keep-alives, 30-second context deadline, log on failure, then
unconditionally signal completion on the `serverDone` channel. -/
structure HandlerResult where
  keepAlivesDisabled : Bool
  deadlineSeconds : Nat
  loggedShutdownFailure : Bool
  signaledDone : Bool
deriving DecidableEq

/-- The interrupt-handler goroutine body of `main` as a straight-line
function of whether the graceful stop failed. -/
def runInterruptHandler (shutdownFails : Bool) : HandlerResult :=
  { keepAlivesDisabled := true
    deadlineSeconds := 30
    loggedShutdownFailure := if shutdownFails then true else false
    signaledDone := true }

/-- Control point of the foreground task of `main` during the serving
phase: before `ListenAndServe`, inside it, blocked on `<-serverDone`, past
that receive, and after `cleanup()`. -/
inductive FgPhase where
  | preServe
  | serving
  | waiting
  | afterWait
  | finished
deriving DecidableEq

/-- Control point of the background signal-watcher goroutine: blocked on
`<-closeSignal`, running the shutdown call, ready to send on `serverDone`,
and done sending. -/
inductive BgPhase where
  | waitSignal
  | shutting
  | readySend
  | sent
deriving DecidableEq

/-- A configuration of the two concurrent tasks of the serving phase plus
the pending-interrupt bit of the buffered signal channel. -/
structure Cfg where
  fg : FgPhase
  bg : BgPhase
  intPending : Bool
deriving DecidableEq

/-- Initial configuration: `signal.Notify` armed and the watcher goroutine
spawned, `ListenAndServe` not yet invoked, no interrupt delivered. -/
def initCfg : Cfg :=
  { fg := FgPhase.preServe, bg := BgPhase.waitSignal, intPending := false }

/-- Observable events of the serving phase. -/
inductive Ev where
  | serveStart
  | serveRet
  | intArrive
  | intObserve
  | shutdownRet
  | doneSync
  | cleanupDir
deriving DecidableEq

/-- Interleaving semantics of the serving phase of `main`: the foreground
task runs `ListenAndServe`, waits on `serverDone`, then removes the working
directory; the watcher observes a delivered interrupt, runs the graceful
stop, then sends on `serverDone`; the unbuffered send and receive on
`serverDone` complete together (`doneSync`). -/
inductive Step : Cfg → Ev → Cfg → Prop where
  | serveStart (b : BgPhase) (p : Bool) :
      Step ⟨FgPhase.preServe, b, p⟩ Ev.serveStart ⟨FgPhase.serving, b, p⟩
  | serveRet (b : BgPhase) (p : Bool) :
      Step ⟨FgPhase.serving, b, p⟩ Ev.serveRet ⟨FgPhase.waiting, b, p⟩
  | intArrive (f : FgPhase) (b : BgPhase) :
      Step ⟨f, b, false⟩ Ev.intArrive ⟨f, b, true⟩
  | intObserve (f : FgPhase) :
      Step ⟨f, BgPhase.waitSignal, true⟩ Ev.intObserve ⟨f, BgPhase.shutting, false⟩
  | shutdownRet (f : FgPhase) (p : Bool) :
      Step ⟨f, BgPhase.shutting, p⟩ Ev.shutdownRet ⟨f, BgPhase.readySend, p⟩
  | doneSync (p : Bool) :
      Step ⟨FgPhase.waiting, BgPhase.readySend, p⟩ Ev.doneSync ⟨FgPhase.afterWait, BgPhase.sent, p⟩
  | cleanupDir (b : BgPhase) (p : Bool) :
      Step ⟨FgPhase.afterWait, b, p⟩ Ev.cleanupDir ⟨FgPhase.finished, b, p⟩

/-- Finite executions: `Steps c tr c2` holds when the event list `tr` can
take the system from `c` to `c2`. -/
inductive Steps : Cfg → List Ev → Cfg → Prop where
  | refl (c : Cfg) : Steps c [] c
  | snoc (c c2 c3 : Cfg) (tr : List Ev) (e : Ev) :
      Steps c tr c2 → Step c2 e c3 → Steps c (tr ++ [e]) c3

/-- Happens-before: `e1` precedes `e2` in trace `tr` when every prefix of `tr` containing
`e2` already contains `e1`. -/
def Precedes (e1 e2 : Ev) (tr : List Ev) : Prop :=
  ∀ p : List Ev, p <+: tr → e2 ∈ p → e1 ∈ p

/-- Net per-record effect of the detection pass: set the flag when the
record's key has more than one occurrence in the catalog. -/
def flagIfDup (cat : List Movie) (m : Movie) : Movie :=
  if 1 < keyCount cat (movieKey m) then { m with IsGroupDir := true } else m

/-- Concrete parser for the stale-error evaluation: fails on the directory
name `"Bad.Dir.XYZ"`, succeeds with title `"Film"` on everything else. -/
def c1Parse : String → ParseResult := fun s =>
  if s = "Bad.Dir.XYZ" then { title := "", err := true }
  else { title := "Film", err := false }

/-- Concrete movie entry whose directory name fails to parse while its file
name parses fine. -/
def c1Movie : MovieDirInfo :=
  { Dir := "Bad.Dir.XYZ", MovieFile := "Film.2020.1080p.mkv"
    MovieSize := 100, MimeType := "video/x-matroska" }

/-- Concrete subtitle entry with the same shape as `c1Movie`. -/
def c1Sub : SubDirInfo :=
  { Dir := "Bad.Dir.XYZ", SubFile := "Film.2020.1080p.srt" }

/-- Parser that always succeeds with title `"T"`. -/
def c2Parse : String → ParseResult := fun _ => { title := "T", err := false }

/-- Two movie entries in the same directory. -/
def c2Entries : List MovieDirInfo :=
  [{ Dir := "/r/D", MovieFile := "a.mkv", MovieSize := 1, MimeType := "v" },
   { Dir := "/r/D", MovieFile := "b.mkv", MovieSize := 2, MimeType := "v" }]

/-- The first record of the detection pass over `c2Entries`: flagged. -/
def c2Movie : Movie :=
  { DirPath := "/r/D", DirName := "D", CleanDirName := "T", FileSize := 1
    BaseName := "a.mkv", CleanBaseName := "T", MimeType := "v"
    IsGroupDir := true, IsPrepared := false }

/-- Setup environment with a movie path but no ffmpeg on the PATH. -/
def c5Env : SetupEnv :=
  { moviePath := "/movies", ffmpegInstalled := false, tmdbKey := "key"
    dbOpenOk := true, scanOk := true }

/-- A stale movie record left in the storage file by an earlier run. -/
def c9Stale : Movie :=
  { DirPath := "/old/E", DirName := "E", CleanDirName := "Old", FileSize := 9
    BaseName := "old.mkv", CleanBaseName := "Old", MimeType := "v"
    IsGroupDir := false, IsPrepared := false }

/-- Storage state at startup holding a record from a prior run. -/
def c9Fs : AppFs :=
  { dbExists := true, dbMovies := [c9Stale], dbSubs := []
    removeFails := false, createFails := false }

/-- The storage state after a successful `init()` on `c9Fs`. -/
def c9Fs2 : AppFs :=
  { dbExists := true, dbMovies := [], dbSubs := []
    removeFails := false, createFails := false }

/-- Parser for the fresh-storage run. -/
def c9Parse : String → ParseResult := fun _ => { title := "New", err := false }

/-- This run's scanned movie entries. -/
def c9Movies : List MovieDirInfo :=
  [{ Dir := "/m/New", MovieFile := "new.mkv", MovieSize := 5, MimeType := "video/mp4" }]

/-- This run's scanned subtitle entries. -/
def c9Subs : List SubDirInfo := []

/-- A valid execution in which the interrupt is delivered and observed, and
the graceful stop returns, before `ListenAndServe` is even invoked. -/
def c6Trace : List Ev :=
  [Ev.intArrive, Ev.intObserve, Ev.shutdownRet, Ev.serveStart, Ev.serveRet,
   Ev.doneSync, Ev.cleanupDir]

/-- Final configuration of `c6Trace`. -/
def c6End : Cfg :=
  { fg := FgPhase.finished, bg := BgPhase.sent, intPending := false }

/-- State invariant of the serving-phase transition system, tying each
task's control point to the events that must already have occurred. -/
def Inv (tr : List Ev) (c : Cfg) : Prop :=
  (Ev.cleanupDir ∈ tr ↔ c.fg = FgPhase.finished) ∧
  (Ev.doneSync ∈ tr ↔ (c.fg = FgPhase.afterWait ∨ c.fg = FgPhase.finished)) ∧
  (Ev.serveStart ∈ tr ↔ c.fg ≠ FgPhase.preServe) ∧
  (Ev.intObserve ∈ tr ↔ c.bg ≠ BgPhase.waitSignal) ∧
  (Ev.shutdownRet ∈ tr ↔ (c.bg = BgPhase.readySend ∨ c.bg = BgPhase.sent)) ∧
  ((c.fg = FgPhase.afterWait ∨ c.fg = FgPhase.finished) → c.bg = BgPhase.sent)

theorem movieKey_flag (m : Movie) :
    movieKey { m with IsGroupDir := true } = movieKey m := rfl

theorem foldl_flagKey (ks : List (String × String)) (cat : List Movie) :
    List.foldl flagKey cat ks =
      List.map (fun m => if movieKey m ∈ ks then { m with IsGroupDir := true } else m) cat := by
  induction ks generalizing cat with
  | nil => simp
  | cons k t ih =>
    rw [List.foldl_cons, ih]
    unfold flagKey
    rw [List.map_map]
    refine List.map_congr_left ?_
    intro m _
    simp only [Function.comp_apply, List.mem_cons]
    by_cases hk : movieKey m = k
    · rw [if_pos hk]
      by_cases ht : movieKey m ∈ t
      · rw [if_pos (show movieKey { m with IsGroupDir := true } ∈ t by
              rw [movieKey_flag]; exact ht),
            if_pos (Or.inl hk)]
      · rw [if_neg (show movieKey { m with IsGroupDir := true } ∉ t by
              rw [movieKey_flag]; exact ht),
            if_pos (Or.inl hk)]
    · rw [if_neg hk]
      by_cases ht : movieKey m ∈ t
      · rw [if_pos ht, if_pos (Or.inr ht)]
      · rw [if_neg ht, if_neg (fun h => h.elim hk ht)]

theorem mem_duplicateKeys (cat : List Movie) (m : Movie) (hm : m ∈ cat) :
    movieKey m ∈ duplicateKeys cat ↔ 1 < keyCount cat (movieKey m) := by
  unfold duplicateKeys
  simp only [List.mem_filter, List.mem_dedup, List.mem_map, decide_eq_true_eq]
  constructor
  · intro h
    exact h.2
  · intro h
    exact ⟨⟨m, hm, rfl⟩, h⟩

theorem detectGroups_eq (cat : List Movie) :
    detectGroups cat = List.map (flagIfDup cat) cat := by
  unfold detectGroups
  rw [foldl_flagKey]
  refine List.map_congr_left ?_
  intro m hm
  unfold flagIfDup
  by_cases hd : 1 < keyCount cat (movieKey m)
  · rw [if_pos ((mem_duplicateKeys cat m hm).mpr hd), if_pos hd]
  · rw [if_neg (fun hmem => hd ((mem_duplicateKeys cat m hm).mp hmem)), if_neg hd]

theorem movieKey_flagIfDup (cat : List Movie) (m : Movie) :
    movieKey (flagIfDup cat m) = movieKey m := by
  unfold flagIfDup
  split <;> rfl

theorem keyCount_detectGroups (cat : List Movie) (k : String × String) :
    keyCount (detectGroups cat) k = keyCount cat k := by
  rw [detectGroups_eq]
  unfold keyCount
  rw [List.filter_map, List.length_map]
  refine congrArg List.length (List.filter_congr ?_)
  intro m _
  simp [Function.comp, movieKey_flagIfDup]

theorem flagIfDup_idem (cat : List Movie) (m : Movie) :
    flagIfDup cat (flagIfDup cat m) = flagIfDup cat m := by
  by_cases hd : 1 < keyCount cat (movieKey m)
  · unfold flagIfDup
    rw [if_pos hd, movieKey_flag, if_pos hd]
  · unfold flagIfDup
    rw [if_neg hd, if_neg hd]

theorem flagIfDup_detectGroups (cat : List Movie) :
    flagIfDup (detectGroups cat) = flagIfDup cat := by
  funext m
  unfold flagIfDup
  rw [keyCount_detectGroups]

/-- Claim C1, evaluated at the failing input: for an entry whose directory
name fails to parse while its file name parses to the non-empty title
`"Film"`, both the movie and the subtitle writer persist an empty
`CleanBaseName`, because the source tests the stale directory-parse error
instead of the base-name parse error. -/
theorem cleanBaseName_failing_input :
    (mkMovieRecord c1Parse c1Movie).CleanBaseName = "" ∧
    (c1Parse c1Movie.MovieFile).err = false ∧
    (c1Parse c1Movie.MovieFile).title = "Film" ∧
    (mkSubRecord c1Parse c1Sub).CleanBaseName = "" ∧
    (c1Parse c1Sub.SubFile).err = false ∧
    (c1Parse c1Sub.SubFile).title = "Film" := by
  decide

theorem detect_flag_core (cat : List Movie)
    (hinit : ∀ m ∈ cat, m.IsGroupDir = false)
    (m : Movie) (hm : m ∈ detectGroups cat) :
    m.IsGroupDir = true ↔ 2 ≤ keyCount (detectGroups cat) (movieKey m) := by
  rw [detectGroups_eq] at hm
  obtain ⟨a, ha, rfl⟩ := List.mem_map.mp hm
  rw [keyCount_detectGroups, movieKey_flagIfDup]
  unfold flagIfDup
  by_cases hd : 1 < keyCount cat (movieKey a)
  · rw [if_pos hd]
    exact ⟨fun _ => hd, fun _ => rfl⟩
  · rw [if_neg hd]
    constructor
    · intro h
      rw [hinit a ha] at h
      exact absurd h (by simp)
    · intro h
      exact absurd h hd

/-- Claim C2: after the duplicate-group detection pass over the movie
records persisted by `saveMovies`, a record's `IsGroupDir` flag is true iff
at least two movie records of the catalog share its
`(directoryName, directoryPath)` key. -/
theorem detect_flag_iff (parse : String → ParseResult)
    (entries : List MovieDirInfo) (m : Movie)
    (hm : m ∈ detectGroups (saveMovies parse entries)) :
    m.IsGroupDir = true ↔
      2 ≤ keyCount (detectGroups (saveMovies parse entries)) (movieKey m) := by
  refine detect_flag_core (saveMovies parse entries) ?_ m hm
  intro x hx
  obtain ⟨e, _, rfl⟩ := List.mem_map.mp hx
  rfl

/-- Witness for claim C2 at a concrete two-movies-one-directory run. -/
theorem detect_flag_iff_w :
    c2Movie.IsGroupDir = true ↔
      2 ≤ keyCount (detectGroups (saveMovies c2Parse c2Entries)) (movieKey c2Movie) :=
  detect_flag_iff c2Parse c2Entries c2Movie (by decide)

/-- Claim C3: the duplicate-group detection pass is idempotent on every
catalog of movie records. -/
theorem detectGroups_idem (cat : List Movie) :
    detectGroups (detectGroups cat) = detectGroups cat := by
  rw [detectGroups_eq (detectGroups cat), flagIfDup_detectGroups,
    detectGroups_eq cat, List.map_map]
  refine List.map_congr_left ?_
  intro m _
  exact flagIfDup_idem cat m

/-- Claim C4: the detection pass never touches subtitle records — the
subtitle table after the pass is exactly the subtitle table before it,
whatever the directory collisions in either table. -/
theorem detectGroupsPass_subs (c : Catalog) :
    (detectGroupsPass c).subs = c.subs := rfl

/-- Claim C5 counterexample: it is not the case that every abort removes
the working directory — the missing-ffmpeg abort panics without running
`cleanup()`. -/
theorem runSetup_cleanup_cex :
    ¬ ∀ (env : SetupEnv) (c : Bool),
        runSetup env = SetupOutcome.aborted c → c = true := by
  intro h
  have hc := h c5Env false (by decide)
  simp at hc

/-- Claim C5 (amended): on an abort transition the working directory has
been removed before exit in every case except the missing-ffmpeg check; the
cleanup is skipped exactly when the movie path is present but ffmpeg is
missing. -/
theorem runSetup_cleanup_amended (env : SetupEnv) (c : Bool)
    (h : runSetup env = SetupOutcome.aborted c) :
    c = false ↔ (env.moviePath.length ≠ 0 ∧ env.ffmpegInstalled = false) := by
  unfold runSetup at h
  split_ifs at h with h1 h2 h3 h4 h5
  · injection h with hc
    subst hc
    simp [h1]
  · injection h with hc
    subst hc
    simp [h1, h2]
  · injection h with hc
    subst hc
    simp [h2]
  · injection h with hc
    subst hc
    simp [h2]
  · injection h with hc
    subst hc
    simp [h2]

/-- Witness for the amended claim C5 at the concrete missing-ffmpeg
environment. -/
theorem runSetup_cleanup_amended_w :
    (false = false) ↔
      (c5Env.moviePath.length ≠ 0 ∧ c5Env.ffmpegInstalled = false) :=
  runSetup_cleanup_amended c5Env false (by decide)

/-- Claim C7: on interrupt the graceful stop runs against a fixed 30-second
deadline, keep-alives are disabled, a failed stop is logged, and completion
is signaled on the one-shot channel whether or not the stop failed. -/
theorem interruptHandler_nonfatal (shutdownFails : Bool) :
    (runInterruptHandler shutdownFails).deadlineSeconds = 30 ∧
    (runInterruptHandler shutdownFails).signaledDone = true ∧
    (runInterruptHandler shutdownFails).keepAlivesDisabled = true ∧
    (runInterruptHandler shutdownFails).loggedShutdownFailure = shutdownFails := by
  cases shutdownFails <;> simp [runInterruptHandler]

/-- Claim C8: the service is constructed with the fixed default resolution
set exactly when the caller specifies zero tokens, and with exactly the
caller's tokens otherwise. -/
theorem mkServerConfig_resolutions (port : Nat) (appDir tmdbApiKey : String) :
    (mkServerConfig port appDir tmdbApiKey []).screenResolutions =
        ["360p", "480p", "720p", "1080p"] ∧
    ∀ rs : List String, rs ≠ [] →
      (mkServerConfig port appDir tmdbApiKey rs).screenResolutions = rs := by
  constructor
  · rfl
  · intro rs h
    unfold mkServerConfig effectiveResolutions
    rw [if_neg (by simpa using h)]

/-- Witness for claim C8: default on zero tokens, identity on one token. -/
theorem mkServerConfig_resolutions_w :
    (mkServerConfig 1818 "appdir" "key" []).screenResolutions =
        ["360p", "480p", "720p", "1080p"] ∧
    (mkServerConfig 1818 "appdir" "key" ["720p"]).screenResolutions = ["720p"] :=
  ⟨(mkServerConfig_resolutions 1818 "appdir" "key").1,
   (mkServerConfig_resolutions 1818 "appdir" "key").2 ["720p"] (by decide)⟩

/-- Claim C9: whenever startup storage initialization succeeds, the catalog
after ingestion consists of exactly this run's records — no record of any
earlier run survives, whatever the storage file previously held. -/
theorem initStorage_fresh (fs fs2 : AppFs) (parse : String → ParseResult)
    (movies : List MovieDirInfo) (subs : List SubDirInfo)
    (h : initStorage fs = some fs2) :
    (ingest parse fs2 movies subs).dbMovies = saveMovies parse movies ∧
    (ingest parse fs2 movies subs).dbSubs = saveSubs parse subs := by
  unfold initStorage at h
  split_ifs at h
  · injection h with hfs
    subst hfs
    unfold ingest
    simp
  · injection h with hfs
    subst hfs
    unfold ingest
    simp

/-- Witness for claim C9: a storage file holding a stale record is emptied
and the served catalog is exactly this run's single movie. -/
theorem initStorage_fresh_w :
    (ingest c9Parse c9Fs2 c9Movies c9Subs).dbMovies = saveMovies c9Parse c9Movies ∧
    (ingest c9Parse c9Fs2 c9Movies c9Subs).dbSubs = saveSubs c9Parse c9Subs :=
  initStorage_fresh c9Fs c9Fs2 c9Parse c9Movies c9Subs (by decide)

/-- Claim C10: the error of the user-cache-root resolution is discarded at
package initialization; when the resolution fails the working directory
silently becomes the relative path `"voodioapp"`, joined onto the empty
base string. -/
theorem getAppDir_on_cache_failure :
    cacheDirOf none = "" ∧ getAppDir none = "voodioapp" := by
  constructor
  · rfl
  · rfl

theorem steps_inv (tr : List Ev) (c : Cfg) (h : Steps initCfg tr c) :
    Inv tr c := by
  induction h with
  | refl =>
    unfold Inv
    decide
  | snoc c2 c3 tr e hsteps hstep ih =>
    obtain ⟨i1, i2, i3, i4, i5, i6⟩ := ih
    cases hstep <;>
      simp_all [Inv, List.mem_append]

theorem steps_restrict (tr : List Ev) (c : Cfg) (h : Steps initCfg tr c) :
    ∀ p : List Ev, p <+: tr → ∃ c2, Steps initCfg p c2 := by
  induction h with
  | refl =>
    intro p hp
    rw [List.prefix_nil.mp hp]
    exact ⟨initCfg, Steps.refl initCfg⟩
  | snoc c2 c3 tr e hsteps hstep ih =>
    intro p hp
    by_cases hlen : p.length ≤ tr.length
    · exact ih p (List.prefix_of_prefix_length_le hp (List.prefix_append tr [e]) hlen)
    · have hlen2 : p.length = (tr ++ [e]).length := by
        have := hp.length_le
        simp only [List.length_append, List.length_singleton] at this ⊢
        omega
      rw [hp.eq_of_length hlen2]
      exact ⟨c3, Steps.snoc initCfg c2 c3 tr e hsteps hstep⟩

theorem steps_order (tr : List Ev) (c : Cfg) (h : Steps initCfg tr c) :
    (Ev.cleanupDir ∈ tr → Ev.doneSync ∈ tr) ∧
    (Ev.doneSync ∈ tr → Ev.shutdownRet ∈ tr) ∧
    (Ev.shutdownRet ∈ tr → Ev.intObserve ∈ tr) ∧
    (Ev.cleanupDir ∈ tr → Ev.serveStart ∈ tr) := by
  obtain ⟨i1, i2, i3, i4, i5, i6⟩ := steps_inv tr c h
  refine ⟨?_, ?_, ?_, ?_⟩
  · intro hm
    exact i2.mpr (Or.inr (i1.mp hm))
  · intro hm
    have hbg := i6 (i2.mp hm)
    exact i5.mpr (Or.inr hbg)
  · intro hm
    refine i4.mpr ?_
    rcases i5.mp hm with hb | hb <;> simp [hb]
  · intro hm
    refine i3.mpr ?_
    rw [i1.mp hm]
    simp

/-- The execution `c6Trace` is a valid run of the serving phase. -/
theorem c6TraceSteps : Steps initCfg c6Trace c6End := by
  have h0 : Steps initCfg [] initCfg := Steps.refl initCfg
  have h1 := Steps.snoc _ _ _ _ _ h0
    (Step.intArrive FgPhase.preServe BgPhase.waitSignal)
  have h2 := Steps.snoc _ _ _ _ _ h1 (Step.intObserve FgPhase.preServe)
  have h3 := Steps.snoc _ _ _ _ _ h2 (Step.shutdownRet FgPhase.preServe false)
  have h4 := Steps.snoc _ _ _ _ _ h3 (Step.serveStart BgPhase.readySend false)
  have h5 := Steps.snoc _ _ _ _ _ h4 (Step.serveRet BgPhase.readySend false)
  have h6 := Steps.snoc _ _ _ _ _ h5 (Step.doneSync false)
  have h7 := Steps.snoc _ _ _ _ _ h6 (Step.cleanupDir BgPhase.sent false)
  exact h7

/-- Claim C6 counterexample: the full claimed happens-before chain fails,
because there is a valid execution in which the watcher observes the
interrupt before `ListenAndServe` starts. -/
theorem shutdown_ordering_cex :
    ¬ ∀ (tr : List Ev) (c : Cfg), Steps initCfg tr c →
      (Precedes Ev.serveStart Ev.intObserve tr ∧
       Precedes Ev.intObserve Ev.shutdownRet tr ∧
       Precedes Ev.shutdownRet Ev.cleanupDir tr ∧
       Precedes Ev.doneSync Ev.cleanupDir tr) := by
  intro h
  have hpre : [Ev.intArrive, Ev.intObserve] <+: c6Trace :=
    ⟨[Ev.shutdownRet, Ev.serveStart, Ev.serveRet, Ev.doneSync, Ev.cleanupDir], rfl⟩
  have hobs := (h c6Trace c6End c6TraceSteps).1 [Ev.intArrive, Ev.intObserve]
    hpre (by decide)
  simp at hobs

/-- Claim C6 (amended): in every execution of the serving phase,
working-directory removal happens-after the graceful-stop call returns,
which happens-after the interrupt is observed; removal also happens-after
serving started; and the foreground task does not pass its wait for server
close before the background task's completion signal (the `serverDone`
rendezvous).  Interrupt observation, however, is not ordered after serving
start. -/
theorem shutdown_ordering (tr : List Ev) (c : Cfg) (h : Steps initCfg tr c) :
    Precedes Ev.shutdownRet Ev.cleanupDir tr ∧
    Precedes Ev.intObserve Ev.shutdownRet tr ∧
    Precedes Ev.serveStart Ev.cleanupDir tr ∧
    Precedes Ev.doneSync Ev.cleanupDir tr := by
  refine ⟨?_, ?_, ?_, ?_⟩ <;> intro p hp hm
  all_goals obtain ⟨c2, hsp⟩ := steps_restrict tr c h p hp
  all_goals obtain ⟨o1, o2, o3, o4⟩ := steps_order p c2 hsp
  · exact o2 (o1 hm)
  · exact o3 hm
  · exact o4 hm
  · exact o1 hm

/-- Witness for the amended claim C6 on the concrete run `c6Trace`: the
graceful-stop return is in the trace ahead of the cleanup. -/
theorem shutdown_ordering_w : Ev.shutdownRet ∈ c6Trace :=
  (shutdown_ordering c6Trace c6End c6TraceSteps).1 c6Trace
    (List.prefix_refl c6Trace) (by decide)

end Voodio
